import Mathlib

/-!
Shallow embedding of the asynchronous HTTP client engine in
`src/http/src/http/v2/client/client.cpp` (cpp-netlib v2 client).

The engine is a chain of completion handlers driven by boost.asio:
`execute → connect → write_request → write_body → read_response →
read_response_status → read_response_headers → read_response_body*`.
Each handler is embedded as a pure Lean function from its inputs
(the completion error code, byte counts, the mutable engine / request
context state) to the updated state plus a description of the
asynchronous operation it issues next.  The environment (transport,
resolver, server) is abstracted as explicit completion inputs, so a
whole execution is a fold of handlers over a script of completions.
Byte strings (`std::string`, streambuf contents) are embedded as
`List Char`.

Fulfilments of the `std::promise<response>` result channel are recorded
as an ordered list of write attempts (`promiseWrites`); in C++ a second
`set_value`/`set_exception` on a satisfied promise throws, so the list
length is exactly the number of fulfilment attempts made on the channel.
-/

namespace CppNetlib

/-- `boost::system::error_code` as the engine observes it: `ok` is the
zero (no-error) code, `eof` is `boost::asio::error::eof`, `timedOut` is
`boost::asio::error::timed_out`, `aborted` is
`boost::asio::error::operation_aborted` (timer cancelled); any other
nonzero code is `other n`. -/
inductive ECode where
  | ok
  | eof
  | timedOut
  | aborted
  | other (n : Nat)
deriving DecidableEq, Repr

/-- Truthiness of a `boost::system::error_code`: `if (ec)` is true
exactly when the code is nonzero. -/
def ECode.isErr : ECode → Bool
  | .ok => false
  | _ => true

/-- Errors delivered through the result channel: `std::system_error`
built from an error code (`set_error`), or
`client_exception(client_error::invalid_request)` from a local
serialization failure. -/
inductive ClientErr where
  | system (ec : ECode)
  | invalidRequest
deriving DecidableEq, Repr

/-- `response`: version string, numeric status, trimmed status message,
ordered header pair list (duplicates preserved), body bytes. -/
structure Response where
  version : List Char := []
  status : Nat := 0
  statusMessage : List Char := []
  headers : List (List Char × List Char) := []
  body : List Char := []
deriving DecidableEq, Repr

/-- One write attempt on the `std::promise<response>` result channel:
either `set_exception` or `set_value`. -/
inductive PromiseWrite where
  | exn (e : ClientErr)
  | val (r : Response)
deriving DecidableEq, Repr

/-- `client_message::transfer_direction` for the progress callback. -/
inductive Direction where
  | bytesWritten
  | bytesRead
deriving DecidableEq, Repr

/-- The part of `request` the engine reads: the serialized header block
produced by `operator<<` (defined outside this source file) and the
body payload bytes. -/
structure Request where
  serializedHeaders : List Char := []
  body : List Char := []
deriving DecidableEq, Repr

/-- `request_context`: per-request mutable bundle.  `requestBuffer` and
`responseBuffer` model the two `boost::asio::streambuf`s,
`promiseWrites` records every fulfilment attempt on the promise in
order, `progressLog` records every invocation of the progress callback
(direction, cumulative bytes), `disconnects` counts
`connection_->disconnect()` calls on this context's connection. -/
structure Ctx where
  request : Request := {}
  requestBuffer : List Char := []
  responseBuffer : List Char := []
  totalBytesWritten : Nat := 0
  totalBytesRead : Nat := 0
  promiseWrites : List PromiseWrite := []
  hasProgress : Bool := false
  progressLog : List (Direction × Nat) := []
  disconnects : Nat := 0
deriving DecidableEq, Repr

/-- Engine-wide (`client::impl`) mutable state: the single shared
`timedout_` flag and the deadline timer, modelled by whether
`timer_.cancel()` has been called.  Both are fields of `client::impl`,
not of `request_context`, so they are shared by every request the
engine services. -/
structure Engine where
  timedout : Bool := false
  timerCancelled : Bool := false
deriving DecidableEq, Repr

/-- `client::impl::set_error`: fulfils the promise with a
`std::system_error` built from `ec`, then cancels the timer. -/
def set_error (ec : ECode) (eng : Engine) (ctx : Ctx) : Engine × Ctx :=
  ({ eng with timerCancelled := true },
   { ctx with promiseWrites := ctx.promiseWrites ++ [.exn (.system ec)] })

/-- `client::impl::timeout`: the deadline-timer completion handler.
`if (!ec) connection_->disconnect();` then `timedout_ = true;`
unconditionally — also when `ec` is `operation_aborted` because the
timer was cancelled. -/
def timeout (ec : ECode) (eng : Engine) (ctx : Ctx) : Engine × Ctx :=
  let ctx := if ec = .ok then { ctx with disconnects := ctx.disconnects + 1 } else ctx
  ({ eng with timedout := true }, ctx)

/-- What `connect` does after its guard: either `set_error` was called,
or `async_connect` was issued on candidate `idx`, or the past-the-end
resolver iterator was dereferenced (`*endpoint_iterator` with
`endpoint_iterator == tcp::resolver::iterator()`), which is undefined
behaviour in C++. -/
inductive ConnectOut where
  | errored
  | attempt (idx : Nat)
  | derefEnd
deriving DecidableEq, Repr

/-- `client::impl::connect(ec, endpoint_iterator, context)` up to the
point where it issues `async_connect`.  The resolver iterator is
modelled as the candidate list plus an index; the default-constructed
end iterator is `idx ≥ endpoints.length`.  Note there is no `timedout_`
check in this handler. -/
def connect (ec : ECode) (endpoints : List String) (idx : Nat)
    (eng : Engine) (ctx : Ctx) : Engine × Ctx × ConnectOut :=
  if ec.isErr then
    let (eng, ctx) := set_error ec eng ctx
    (eng, ctx, .errored)
  else if idx < endpoints.length then
    (eng, ctx, .attempt idx)
  else
    (eng, ctx, .derefEnd)

/-- Result of running the connect/failover loop to quiescence:
`resolveError` (the initial `ec` was set, `set_error` ran), `derefEnd`
(the loop re-entered `connect` with the end iterator and dereferenced
it), or `proceed ec` (control passed to `write_request(ec, context)`).
The final component lists the candidate indices on which
`async_connect` was issued, in order. -/
inductive ConnectLoopOut where
  | resolveError
  | derefEnd
  | proceed (ec : ECode)
deriving DecidableEq, Repr

/-- The connect stage run to quiescence: `connect` plus its
`async_connect` completion lambda, which on `ec && endpoint_iterator !=
tcp::resolver::iterator()` re-enters `connect` with a cleared error
code and the incremented iterator, and otherwise calls
`write_request(ec, context)`.  `connectResult i` is the transport's
outcome for a connect attempt on candidate `i`. -/
def connectLoop (connectResult : Nat → ECode) (endpoints : List String)
    (idx : Nat) (eng : Engine) (ctx : Ctx) :
    Engine × Ctx × ConnectLoopOut × List Nat :=
  -- `connect(ok, it, context)`: `if (ec)` is false; `*endpoint_iterator`
  -- demands `idx < endpoints.length`, otherwise it dereferences the end
  -- iterator; on success `async_connect` is issued on candidate `idx`.
  if _h : idx < endpoints.length then
    -- the completion lambda receives `ec := connectResult idx` and checks
    -- `if (ec && endpoint_iterator != tcp::resolver::iterator())`
    let ec := connectResult idx
    if ec.isErr ∧ idx < endpoints.length then
      match connectLoop connectResult endpoints (idx + 1) eng ctx with
      | (eng, ctx, out, attempts) => (eng, ctx, out, idx :: attempts)
    else
      -- otherwise the lambda calls `write_request(ec, context)`
      (eng, ctx, .proceed ec, [idx])
  else
    (eng, ctx, .derefEnd, [])
termination_by endpoints.length - idx
decreasing_by omega

/-- The connect-stage entry with a resolver error: `connect` with
`ec` set calls `set_error` and returns. -/
def connectLoopFromResolve (ec : ECode) (connectResult : Nat → ECode)
    (endpoints : List String) (eng : Engine) (ctx : Ctx) :
    Engine × Ctx × ConnectLoopOut × List Nat :=
  if ec.isErr then
    let (eng, ctx) := set_error ec eng ctx
    (eng, ctx, .resolveError, [])
  else
    connectLoop connectResult endpoints 0 eng ctx

/-- The asynchronous operation a handler issues before returning:
`stop` means it returned without issuing I/O. -/
inductive NextOp where
  | stop
  | write (bytes : List Char)
  | readUntil (delim : String)
  | read
deriving DecidableEq, Repr

/-- `client::impl::write_request(ec, context)`.  `serFails` models the
state of `std::ostream request_stream(&request_buffer_)` after
`request_stream << context->request_`: when the stream fails nothing is
inserted and `if (!request_stream)` fulfils the promise with
`client_error::invalid_request` and cancels the timer — but does NOT
return, so `async_write(request_buffer_)` is still issued.  `async_write`
drains the streambuf it is given. -/
def write_request (ec : ECode) (serFails : Bool) (eng : Engine)
    (ctx : Ctx) : Engine × Ctx × NextOp :=
  if eng.timedout then
    let (eng, ctx) := set_error .timedOut eng ctx
    (eng, ctx, .stop)
  else if ec.isErr then
    let (eng, ctx) := set_error ec eng ctx
    (eng, ctx, .stop)
  else
    let ctx :=
      if serFails then ctx
      else { ctx with
        requestBuffer := ctx.requestBuffer ++ ctx.request.serializedHeaders }
    let (eng, ctx) :=
      if serFails then
        ({ eng with timerCancelled := true },
         { ctx with promiseWrites := ctx.promiseWrites ++ [.exn .invalidRequest] })
      else (eng, ctx)
    (eng, { ctx with requestBuffer := [] }, .write ctx.requestBuffer)

/-- `client::impl::write_body(ec, bytes_written, context)`.  Updates the
sent-byte counter and progress, then constructs
`std::ostream request_stream(&request_buffer_)` but — per the `TODO
write payload to request_buffer_` — inserts nothing into it; on a failed
stream it fulfils the promise with `invalid_request` (without cancelling
the timer and without returning) and then issues
`async_write(request_buffer_)` on the unmodified buffer. -/
def write_body (ec : ECode) (bytesWritten : Nat) (serFails : Bool)
    (eng : Engine) (ctx : Ctx) : Engine × Ctx × NextOp :=
  if eng.timedout then
    let (eng, ctx) := set_error .timedOut eng ctx
    (eng, ctx, .stop)
  else if ec.isErr then
    let (eng, ctx) := set_error ec eng ctx
    (eng, ctx, .stop)
  else
    let ctx := { ctx with totalBytesWritten := ctx.totalBytesWritten + bytesWritten }
    let ctx :=
      if ctx.hasProgress then
        { ctx with progressLog :=
            ctx.progressLog ++ [(.bytesWritten, ctx.totalBytesWritten)] }
      else ctx
    let ctx :=
      if serFails then
        { ctx with promiseWrites := ctx.promiseWrites ++ [.exn .invalidRequest] }
      else ctx
    (eng, { ctx with requestBuffer := [] }, .write ctx.requestBuffer)

/-- `client::impl::read_response(ec, bytes_written, context)`: the
completion of the body write.  Updates the sent-byte counter and
progress, then issues `async_read_until(response_buffer_, "\r\n")`. -/
def read_response (ec : ECode) (bytesWritten : Nat) (eng : Engine)
    (ctx : Ctx) : Engine × Ctx × NextOp :=
  if eng.timedout then
    let (eng, ctx) := set_error .timedOut eng ctx
    (eng, ctx, .stop)
  else if ec.isErr then
    let (eng, ctx) := set_error ec eng ctx
    (eng, ctx, .stop)
  else
    let ctx := { ctx with totalBytesWritten := ctx.totalBytesWritten + bytesWritten }
    let ctx :=
      if ctx.hasProgress then
        { ctx with progressLog :=
            ctx.progressLog ++ [(.bytesWritten, ctx.totalBytesWritten)] }
      else ctx
    (eng, ctx, .readUntil "\r\n")

/-- `std::isspace` in the default locale, as used by `operator>>`
whitespace skipping and `boost::trim_copy`. -/
def isWS (c : Char) : Bool :=
  c = ' ' || c = '\t' || c = '\n' || c = '\x0b' || c = '\x0c' || c = '\r'

/-- `boost::trim_copy`: strip leading and trailing whitespace. -/
def trimWS (l : List Char) : List Char :=
  ((l.dropWhile isWS).reverse.dropWhile isWS).reverse

/-- Value of a digit run as read by `is >> status` into an
`unsigned int`. -/
def natOfDigits (ds : List Char) : Nat :=
  ds.foldl (fun n c => n * 10 + (c.toNat - 48)) 0

/-- The parsing body of `read_response_status`:
`is >> version; is >> status; std::getline(is, message);` over the
response streambuf, then `boost::trim_copy(message)`.  Extraction skips
leading whitespace; `is >> status` consumes a digit run (when there is
none the extraction fails, C++11 stores 0 and the subsequent `getline`
on the failed stream leaves `message` empty); `getline` consumes up to
and including the next `'\n'`.  Returns the built `response` fields and
the unconsumed rest of the buffer. -/
def parseStatusLine (buf : List Char) : Response × List Char :=
  let b1 := buf.dropWhile isWS
  let version := b1.takeWhile (fun c => !isWS c)
  let b2 := b1.dropWhile (fun c => !isWS c)
  let b3 := b2.dropWhile isWS
  let digits := b3.takeWhile Char.isDigit
  let b4 := b3.dropWhile Char.isDigit
  if digits.isEmpty then
    ({ version := version, status := 0, statusMessage := [] }, b4)
  else
    let message := b4.takeWhile (fun c => c ≠ '\n')
    let rest := (b4.dropWhile (fun c => c ≠ '\n')).drop 1
    ({ version := version, status := natOfDigits digits,
       statusMessage := trimWS message }, rest)

/-- `boost::find_first_of(header, ":")` followed by taking the prefix:
splits a line at the first `':'`, returning (before, after) without the
colon; `none` when the line has no colon, in which case the C++
increments and dereferences past `std::end(header)` (undefined
behaviour). -/
def splitAtFirstColon : List Char → Option (List Char × List Char)
  | [] => none
  | c :: cs =>
    if c = ':' then some ([], cs)
    else
      match splitAtFirstColon cs with
      | none => none
      | some (k, v) => some (c :: k, v)

/-- `while (*++delim == ' ') {}` after the colon: skip the single run
of leading `' '` characters (only spaces — not tabs).  When the run
reaches the end of the string the C++ reads the terminating null
character, which is not a space, and stops. -/
def skipLeadingSpaces : List Char → List Char
  | ' ' :: cs => skipLeadingSpaces cs
  | cs => cs

/-- One iteration body of the header loop: key is everything before the
first `':'`, value is everything after it with the leading space run
stripped; `none` on a colon-less line (C++ undefined behaviour). -/
def parseHeaderLine (line : List Char) : Option (List Char × List Char) :=
  match splitAtFirstColon line with
  | none => none
  | some (key, after) => some (key, skipLeadingSpaces after)

theorem length_dropWhile_drop_lt (p : Char → Bool) (buf : List Char)
    (h : buf ≠ []) : ((buf.dropWhile p).drop 1).length < buf.length := by
  match buf with
  | c :: cs =>
    rw [List.dropWhile_cons]
    by_cases hp : p c
    · simp only [hp, if_true, List.length_drop, List.length_cons]
      have := (List.dropWhile_sublist (l := cs) p).length_le
      omega
    · simp [hp]

/-- The header loop of `read_response_headers`:
`while (std::getline(is, header) && (header != "\r")) { split; add_header; }`.
`std::getline` reads up to and including the next `'\n'` (the `'\n'`
excluded from the line) and fails only when no characters remain.
Returns the header pairs appended in arrival order (duplicates
preserved) and the unconsumed rest of the buffer; `none` when a
colon-less line sends the C++ into undefined behaviour. -/
def headersLoop (buf : List Char) :
    Option (List (List Char × List Char) × List Char) :=
  if h : buf = [] then some ([], [])
  else
    let line := buf.takeWhile (fun x => x ≠ '\n')
    let rest := (buf.dropWhile (fun x => x ≠ '\n')).drop 1
    if line = ['\r'] then some ([], rest)
    else
      match parseHeaderLine line with
      | none => none
      | some p =>
        match headersLoop rest with
        | none => none
        | some (ps, rem) => some (p :: ps, rem)
termination_by buf.length
decreasing_by exact length_dropWhile_drop_lt _ buf h

/-- Outcome of a read-stage handler: `errored` (`set_error` ran and the
handler returned), `ub` (the C++ reached undefined behaviour), or
`next res io` (the handler issued the asynchronous operation `io`,
carrying the response object built so far). -/
inductive StageOut where
  | errored
  | ub
  | next (res : Response) (io : NextOp)
deriving DecidableEq, Repr

/-- `client::impl::read_response_status(ec, _, context)`: guards, then
parses version/status/message out of `response_buffer_`, builds the
`response`, and issues `async_read_until(response_buffer_, "\r\n\r\n")`.
No validation is applied to the parsed status. -/
def read_response_status (ec : ECode) (eng : Engine) (ctx : Ctx) :
    Engine × Ctx × StageOut :=
  if eng.timedout then
    let (eng, ctx) := set_error .timedOut eng ctx
    (eng, ctx, .errored)
  else if ec.isErr then
    let (eng, ctx) := set_error ec eng ctx
    (eng, ctx, .errored)
  else
    let (res, rest) := parseStatusLine ctx.responseBuffer
    (eng, { ctx with responseBuffer := rest }, .next res (.readUntil "\r\n\r\n"))

/-- `client::impl::read_response_headers(ec, _, context, res)`: guards,
then runs the getline/split loop over `response_buffer_`, appending each
pair to `res` via `add_header`, and issues
`async_read(response_buffer_)`. -/
def read_response_headers (ec : ECode) (eng : Engine) (ctx : Ctx)
    (res : Response) : Engine × Ctx × StageOut :=
  if eng.timedout then
    let (eng, ctx) := set_error .timedOut eng ctx
    (eng, ctx, .errored)
  else if ec.isErr then
    let (eng, ctx) := set_error ec eng ctx
    (eng, ctx, .errored)
  else
    match headersLoop ctx.responseBuffer with
    | none => (eng, ctx, .ub)
    | some (pairs, rest) =>
      (eng, { ctx with responseBuffer := rest },
       .next { res with headers := res.headers ++ pairs } .read)

/-- `client::impl::read_response_body(ec, bytes_read, context, res)`.
The timeout guard runs first; then `if (ec && ec != boost::asio::error::eof)`
is the error guard, so `eof` is not an error.  Progress is updated
before the zero-length check.  On `bytes_read == 0` the promise is
fulfilled with `*res` and the timer cancelled.  Otherwise
`getline_with_newline` drains the whole of `response_buffer_` into one
string (it only stops at EOF, newlines included), which `append_body`
appends to the response body, and `async_read` is issued again
(`.next res .read`). -/
def read_response_body (ec : ECode) (bytesRead : Nat) (eng : Engine)
    (ctx : Ctx) (res : Response) : Engine × Ctx × StageOut :=
  if eng.timedout then
    let (eng, ctx) := set_error .timedOut eng ctx
    (eng, ctx, .errored)
  else if ec.isErr ∧ ec ≠ .eof then
    let (eng, ctx) := set_error ec eng ctx
    (eng, ctx, .errored)
  else
    let ctx := { ctx with totalBytesRead := ctx.totalBytesRead + bytesRead }
    let ctx :=
      if ctx.hasProgress then
        { ctx with progressLog :=
            ctx.progressLog ++ [(.bytesRead, ctx.totalBytesRead)] }
      else ctx
    if bytesRead = 0 then
      ({ eng with timerCancelled := true },
       { ctx with promiseWrites := ctx.promiseWrites ++ [.val res] },
       .next res .stop)
    else
      let res := { res with body := res.body ++ ctx.responseBuffer }
      (eng, { ctx with responseBuffer := [] }, .next res .read)

/-- Outcome of running a read phase against a completion script:
`errored`/`delivered` are terminal, `pending` means the script ran out
while an asynchronous operation was still outstanding, `ub` means the
C++ reached undefined behaviour. -/
inductive RunOut where
  | errored
  | delivered
  | pending
  | ub
deriving DecidableEq, Repr

/-- The `ReadingBody` self-loop run against a script of `async_read`
completions: each completion `(ec, chunk)` first appends `chunk` to
`response_buffer_` (that is what `async_read` into a streambuf does)
and reports `bytes_read = chunk.length`, then `read_response_body`
runs. -/
def runReadBody (script : List (ECode × List Char)) (eng : Engine)
    (ctx : Ctx) (res : Response) : Engine × Ctx × Response × RunOut :=
  match script with
  | [] => (eng, ctx, res, .pending)
  | (ec, chunk) :: rest =>
    let ctx := { ctx with responseBuffer := ctx.responseBuffer ++ chunk }
    match read_response_body ec chunk.length eng ctx res with
    | (eng, ctx, .errored) => (eng, ctx, res, .errored)
    | (eng, ctx, .ub) => (eng, ctx, res, .ub)
    | (eng, ctx, .next res io) =>
      match io with
      | .read => runReadBody rest eng ctx res
      | _ => (eng, ctx, res, .delivered)

/-- The whole response-reading phase run end to end: the
`async_read_until(response_buffer_, "\r\n")` completion appends
`statusChunk` to the buffer, then `read_response_status` runs; the
`async_read_until(response_buffer_, "\r\n\r\n")` completion appends
`headerChunk`, then `read_response_headers` runs; then the body
self-loop runs over `bodyScript`. -/
def runResponsePhase (ecS : ECode) (statusChunk : List Char)
    (ecH : ECode) (headerChunk : List Char)
    (bodyScript : List (ECode × List Char)) (eng : Engine) (ctx : Ctx) :
    Engine × Ctx × Response × RunOut :=
  let ctx := { ctx with responseBuffer := ctx.responseBuffer ++ statusChunk }
  match read_response_status ecS eng ctx with
  | (eng, ctx, .errored) => (eng, ctx, {}, .errored)
  | (eng, ctx, .ub) => (eng, ctx, {}, .ub)
  | (eng, ctx, .next res _) =>
    let ctx := { ctx with responseBuffer := ctx.responseBuffer ++ headerChunk }
    match read_response_headers ecH eng ctx res with
    | (eng, ctx, .errored) => (eng, ctx, res, .errored)
    | (eng, ctx, .ub) => (eng, ctx, res, .ub)
    | (eng, ctx, .next res _) => runReadBody bodyScript eng ctx res

/-- Cumulative received-byte totals starting from `t`, one entry per
chunk: the value the progress callback observes after each non-empty
read. -/
def runningTotals (t : Nat) : List (List Char) → List Nat
  | [] => []
  | c :: cs => (t + c.length) :: runningTotals (t + c.length) cs

/-- Concatenation of chunks in arrival order. -/
def concatChunks : List (List Char) → List Char
  | [] => []
  | c :: cs => c ++ concatChunks cs

/-- Total byte count of a chunk list. -/
def totalLen : List (List Char) → Nat
  | [] => 0
  | c :: cs => c.length + totalLen cs

/-- A wire header block as `async_read_until("\r\n\r\n")` leaves it in
the buffer: each getline-visible line followed by `'\n'`, then the
blank `"\r\n"` terminator.  (On the wire each line itself ends in
`'\r'`; here `lines` are the exact strings `std::getline` hands to the
loop, so a wire line `"K: v\r\n"` appears as the entry `"K: v\r"`.) -/
def mkHeaderBlock (lines : List (List Char)) : List Char :=
  (lines.map (fun l => l ++ ['\n'])).flatten ++ ['\r', '\n']

/-! ## Helper lemmas -/

/-- `connectLoop` agrees with the `connect` handler at each entry: its
guard structure is exactly `connect .ok` followed by the completion
lambda. -/
theorem connectLoop_eq_connect (connectResult : Nat → ECode)
    (endpoints : List String) (idx : Nat) (eng : Engine) (ctx : Ctx) :
    connectLoop connectResult endpoints idx eng ctx =
      match connect .ok endpoints idx eng ctx with
      | (eng, ctx, .errored) => (eng, ctx, .resolveError, [])
      | (eng, ctx, .derefEnd) => (eng, ctx, .derefEnd, [])
      | (eng, ctx, .attempt i) =>
        let ec := connectResult i
        if ec.isErr ∧ i < endpoints.length then
          match connectLoop connectResult endpoints (i + 1) eng ctx with
          | (eng, ctx, out, attempts) => (eng, ctx, out, i :: attempts)
        else (eng, ctx, .proceed ec, [i]) := by
  rw [connectLoop]
  simp only [connect, ECode.isErr]
  split
  · simp_all
  · simp_all

theorem takeWhile_append_cons (p : Char → Bool) (l : List Char) (b : Char)
    (t : List Char) (hl : ∀ c ∈ l, p c = true) (hb : p b = false) :
    (l ++ b :: t).takeWhile p = l ∧ (l ++ b :: t).dropWhile p = b :: t := by
  induction l with
  | nil => simp [List.takeWhile_cons, List.dropWhile_cons, hb]
  | cons a l ih =>
    have ha : p a = true := hl a (by simp)
    have ih' := ih (fun c hc => hl c (by simp [hc]))
    simp [List.takeWhile_cons, List.dropWhile_cons, ha, ih'.1, ih'.2]

/-- `boost::find_first_of` walks to the first `':'`; the key/value split
it induces is prefix-before-colon and suffix-after-colon. -/
theorem splitAtFirstColon_spec (l : List Char) (h : ':' ∈ l) :
    splitAtFirstColon l =
      some (l.takeWhile (fun c => c ≠ ':'),
            (l.dropWhile (fun c => c ≠ ':')).tail) := by
  induction l with
  | nil => cases h
  | cons c cs ih =>
    by_cases hc : c = ':'
    · subst hc
      simp [splitAtFirstColon, List.takeWhile_cons, List.dropWhile_cons]
    · have h' : ':' ∈ cs := by
        rcases List.mem_cons.mp h with h1 | h2
        · exact absurd h1.symm hc
        · exact h2
      simp [splitAtFirstColon, hc, ih h', List.takeWhile_cons,
        List.dropWhile_cons, Ne.symm hc]

/-- The space-skip loop is `dropWhile (· = ' ')` on the suffix after
the colon. -/
theorem skipLeadingSpaces_eq_dropWhile (l : List Char) :
    skipLeadingSpaces l = l.dropWhile (fun c => c = ' ') := by
  induction l with
  | nil => rfl
  | cons c cs ih =>
    by_cases hc : c = ' '
    · subst hc
      rw [List.dropWhile_cons]
      simpa [skipLeadingSpaces] using ih
    · rw [List.dropWhile_cons]
      simp only [hc, decide_eq_true_eq, if_neg]
      rw [skipLeadingSpaces.eq_def]
      split
      · next heq =>
        injection heq with h1 h2
        exact absurd h1 hc
      · rfl

theorem mkHeaderBlock_cons (l : List Char) (ls : List (List Char)) :
    mkHeaderBlock (l :: ls) = l ++ '\n' :: mkHeaderBlock ls := by
  simp [mkHeaderBlock, List.append_assoc]

/-- Running the header loop over a full wire header block parses each
getline line in order, preserving duplicates, and consumes the whole
buffer. -/
theorem headersLoop_mkHeaderBlock (lines : List (List Char))
    (h : ∀ l ∈ lines, ':' ∈ l ∧ l ≠ ['\r'] ∧ '\n' ∉ l) :
    headersLoop (mkHeaderBlock lines) =
      some (lines.map (fun l =>
        (l.takeWhile (fun c => c ≠ ':'),
         skipLeadingSpaces ((l.dropWhile (fun c => c ≠ ':')).tail))), []) := by
  induction lines with
  | nil =>
    show headersLoop ['\r', '\n'] = some ([], [])
    rw [headersLoop]
    decide
  | cons l ls ih =>
    obtain ⟨hcolon, hnotblank, hnonl⟩ := h l (by simp)
    have ih' := ih (fun x hx => h x (by simp [hx]))
    rw [mkHeaderBlock_cons, headersLoop]
    have hne : ¬(l ++ '\n' :: mkHeaderBlock ls = []) := by simp
    rw [dif_neg hne]
    have htw := takeWhile_append_cons (fun x => x ≠ '\n') l '\n'
      (mkHeaderBlock ls) (fun c hc => by
        simp only [decide_eq_true_eq]
        exact fun hcn => hnonl (hcn ▸ hc)) (by simp)
    simp only [htw.1, htw.2, List.drop_succ_cons, List.drop_zero]
    rw [if_neg hnotblank]
    simp only [parseHeaderLine, splitAtFirstColon_spec l hcolon, ih',
      List.map_cons]

/-- Characterization of the `ReadingBody` self-loop on a script of
successful reads of non-empty chunks followed by the final zero-length
read: the body receives the concatenation of the chunks in arrival
order, the received-byte counter ends at the running total, the
progress callback fires once per read — including once more on the
final zero-length read, with the unchanged total — and the promise is
fulfilled once with the finished response, cancelling the timer. -/
theorem runReadBody_ok_script (cs : List (List Char)) :
    ∀ (eng : Engine) (ctx : Ctx) (res : Response),
    (∀ c ∈ cs, c ≠ []) → eng.timedout = false →
    ctx.responseBuffer = [] → ctx.hasProgress = true →
    runReadBody (cs.map (fun c => (ECode.ok, c)) ++ [(.ok, [])])
        eng ctx res =
      ({ eng with timerCancelled := true },
       { ctx with
         totalBytesRead := ctx.totalBytesRead + totalLen cs
         progressLog := ctx.progressLog ++
           ((runningTotals ctx.totalBytesRead cs ++
             [ctx.totalBytesRead + totalLen cs]).map
             (fun n => (Direction.bytesRead, n)))
         promiseWrites := ctx.promiseWrites ++
           [.val { res with body := res.body ++ concatChunks cs }] },
       { res with body := res.body ++ concatChunks cs }, .delivered) := by
  induction cs with
  | nil =>
    intro eng ctx res _ htd hrb hhp
    simp [runReadBody, read_response_body, htd, hrb, hhp, totalLen,
      runningTotals, concatChunks, ECode.isErr]
  | cons c cs ih =>
    intro eng ctx res hc htd hrb hhp
    have hcne : c ≠ [] := hc c (by simp)
    have hlen : ¬(c.length = 0) := by
      simpa [List.length_eq_zero] using hcne
    obtain ⟨etd, etc⟩ := eng
    obtain ⟨req, rqb, rsb, tbw, tbr, pw, hp, pl, dc⟩ := ctx
    simp only at htd hrb hhp
    subst htd hrb hhp
    have hstep := ih ⟨false, etc⟩
      ⟨req, rqb, [], tbw, tbr + c.length, pw, true,
        pl ++ [(Direction.bytesRead, tbr + c.length)], dc⟩
      { res with body := res.body ++ c }
      (fun x hx => hc x (by simp [hx])) rfl rfl rfl
    simp only [List.map_cons, List.cons_append, runReadBody,
      read_response_body, ECode.isErr, Bool.false_eq_true, if_false,
      List.nil_append, if_true, hlen, false_and, List.append_eq]
    rw [hstep]
    simp [totalLen, runningTotals, concatChunks, List.append_assoc,
      Nat.add_assoc]

/-- Running totals are monotonically non-decreasing from any start. -/
theorem runningTotals_chain (t : Nat) (cs : List (List Char)) :
    List.Chain' (· ≤ ·) (t :: runningTotals t cs) := by
  induction cs generalizing t with
  | nil => simp [runningTotals]
  | cons c cs ih =>
    rw [runningTotals]
    exact List.chain'_cons.mpr ⟨by omega, ih (t + c.length)⟩

/-- A header buffer starting with the blank line `"\r\n"` ends the
getline loop immediately: no pairs, rest of the buffer untouched. -/
theorem headersLoop_blank (t : List Char) :
    headersLoop ('\r' :: '\n' :: t) = some ([], t) := by
  rw [headersLoop]
  simp [List.takeWhile_cons, List.dropWhile_cons]

/-- Decimal digits are not `std::isspace` whitespace. -/
theorem isDigit_not_isWS {c : Char} (h : c.isDigit = true) :
    isWS c = false := by
  by_contra hne
  have ht : isWS c = true := by
    cases hw : isWS c
    · exact absurd hw hne
    · rfl
  simp only [isWS, Bool.or_eq_true, decide_eq_true_eq] at ht
  rcases ht with ((((h1 | h1) | h1) | h1) | h1) | h1 <;> subst h1 <;>
    exact absurd h (by decide)

/-! ## Claims -/

/-- C9: whenever the timeout handler runs — for any completion code,
including `operation_aborted` from a cancelled timer — it
unconditionally sets the engine-wide `timedout_` flag (a field of
`client::impl`, shared by all requests) to `true`; only the
`connection_->disconnect()` call is guarded by the absence of an error
code; and no other handler of the engine ever writes the flag, so it is
never reset. -/
theorem c9_timedout_flag_unconditional :
    (∀ ec eng ctx, ((timeout ec eng ctx).1).timedout = true) ∧
    (∀ ec eng ctx, ((timeout ec eng ctx).2).disconnects =
        (if ec = .ok then ctx.disconnects + 1 else ctx.disconnects)) ∧
    (∀ ec eng ctx, ((set_error ec eng ctx).1).timedout = eng.timedout) ∧
    (∀ ec eps idx eng ctx,
        ((connect ec eps idx eng ctx).1).timedout = eng.timedout) ∧
    (∀ ec sf eng ctx,
        ((write_request ec sf eng ctx).1).timedout = eng.timedout) ∧
    (∀ ec n sf eng ctx,
        ((write_body ec n sf eng ctx).1).timedout = eng.timedout) ∧
    (∀ ec n eng ctx,
        ((read_response ec n eng ctx).1).timedout = eng.timedout) ∧
    (∀ ec eng ctx,
        ((read_response_status ec eng ctx).1).timedout = eng.timedout) ∧
    (∀ ec eng ctx res,
        ((read_response_headers ec eng ctx res).1).timedout = eng.timedout) ∧
    (∀ ec n eng ctx res,
        ((read_response_body ec n eng ctx res).1).timedout = eng.timedout) := by
  refine ⟨?_, ?_, ?_, ?_, ?_, ?_, ?_, ?_, ?_, ?_⟩ <;> intros <;>
    first
    | rfl
    | (simp only [timeout, set_error, connect, write_request, write_body,
        read_response, read_response_status, read_response_headers,
        read_response_body]
       repeat' split
       all_goals rfl)

/-- C10: in the `ReadingBody` stage a completion with
`boost::asio::error::eof` is treated exactly like a no-error
completion — the `if (ec && ec != boost::asio::error::eof)` guard does
not fire, so no error is delivered, bytes are appended and progress
updated as on a normal read — and an `eof` completion carrying zero
bytes fulfils the result channel with the `Response` as a success. -/
theorem c10_eof_is_not_an_error :
    (∀ n eng ctx res, read_response_body .eof n eng ctx res =
        read_response_body .ok n eng ctx res) ∧
    (∀ (res : Response) (ctx : Ctx),
        read_response_body .eof 0 {} { ctx with hasProgress := false } res =
          ({ timedout := false, timerCancelled := true },
           { ctx with
             hasProgress := false
             totalBytesRead := ctx.totalBytesRead + 0
             promiseWrites := ctx.promiseWrites ++ [.val res] },
           .next res .stop)) := by
  constructor
  · intro n eng ctx res
    simp only [read_response_body, ECode.isErr]
    split
    · rfl
    · simp
  · intro res ctx
    simp only [read_response_body, ECode.isErr]
    simp

/-- C1: when serialization fails in `write_request`, the handler
fulfils the promise with `invalid_request` but does not return, so the
`async_write` is still issued (`.write []` on the untouched empty
buffer); when that write completes — here with a transport error — the
continuation `write_body` fulfils the promise a second time.  The
result channel is written twice on this path, refuting exactly-once. -/
theorem c1_serialization_failure_double_fulfilment :
    (write_request .ok true {} {}).2.2 = .write [] ∧
    (write_request .ok true {} {}).2.1.promiseWrites =
      [.exn .invalidRequest] ∧
    ((write_body (.other 5) 0 false (write_request .ok true {} {}).1
        (write_request .ok true {} {}).2.1).2.1).promiseWrites =
      [.exn .invalidRequest, .exn (.system (.other 5))] ∧
    ([PromiseWrite.exn .invalidRequest,
      PromiseWrite.exn (.system (.other 5))].length ≠ 1) := by
  decide

/-- C2 counterexample: the `Connecting` stage handler performs no
`timedout_` check — entered with the flag already set and no error
code, `connect` does not short-circuit to a timeout failure: it leaves
the promise untouched (the context is returned unchanged, with an
empty fulfilment list) and issues `async_connect` on the candidate. -/
theorem c2_connecting_has_no_timeout_check :
    connect .ok ["10.0.0.1:80"] 0 { timedout := true } {} =
      ({ timedout := true }, {}, .attempt 0) ∧
    (({} : Ctx).promiseWrites = [] ∧ ConnectOut.attempt 0 ≠ .errored) := by
  decide

/-- C2 amended: every stage handler a completion can enter EXCEPT
`Connecting` — `write_request`, `write_body`, `read_response`,
`read_response_status`, `read_response_headers`, `read_response_body` —
checks the `timedout_` flag first, and if it is set short-circuits to
`set_error(boost::asio::error::timed_out)`, discarding the stage's
completion (`ec` and byte counts are ignored); the `Connecting` handler
performs no such check. -/
theorem c2_all_later_stages_short_circuit_on_timeout (eng : Engine)
    (ctx : Ctx) (h : eng.timedout = true) :
    (∀ ec sf, write_request ec sf eng ctx =
        ({ eng with timerCancelled := true },
         { ctx with promiseWrites :=
             ctx.promiseWrites ++ [.exn (.system .timedOut)] }, .stop)) ∧
    (∀ ec n sf, write_body ec n sf eng ctx =
        ({ eng with timerCancelled := true },
         { ctx with promiseWrites :=
             ctx.promiseWrites ++ [.exn (.system .timedOut)] }, .stop)) ∧
    (∀ ec n, read_response ec n eng ctx =
        ({ eng with timerCancelled := true },
         { ctx with promiseWrites :=
             ctx.promiseWrites ++ [.exn (.system .timedOut)] }, .stop)) ∧
    (∀ ec, read_response_status ec eng ctx =
        ({ eng with timerCancelled := true },
         { ctx with promiseWrites :=
             ctx.promiseWrites ++ [.exn (.system .timedOut)] }, .errored)) ∧
    (∀ ec res, read_response_headers ec eng ctx res =
        ({ eng with timerCancelled := true },
         { ctx with promiseWrites :=
             ctx.promiseWrites ++ [.exn (.system .timedOut)] }, .errored)) ∧
    (∀ ec n res, read_response_body ec n eng ctx res =
        ({ eng with timerCancelled := true },
         { ctx with promiseWrites :=
             ctx.promiseWrites ++ [.exn (.system .timedOut)] }, .errored)) := by
  refine ⟨?_, ?_, ?_, ?_, ?_, ?_⟩ <;> intros <;>
    simp [write_request, write_body, read_response, read_response_status,
      read_response_headers, read_response_body, set_error, h]

theorem c2_all_later_stages_short_circuit_on_timeout_witness :
    ({ timedout := true } : Engine).timedout = true ∧
    write_request .ok false { timedout := true } {} =
      ({ timedout := true, timerCancelled := true },
       { promiseWrites := [.exn (.system .timedOut)] }, .stop) := by
  refine ⟨rfl, ?_⟩
  have h := (c2_all_later_stages_short_circuit_on_timeout
    { timedout := true } {} rfl).1 .ok false
  simpa using h

/-- C3: on candidate-list exhaustion no `ConnectionExhaustedError` — no
error of any kind — is delivered: with two candidates whose connect
attempts both fail, the failover loop attempts candidates `[0, 1]`, each
exactly once and in list order, and then re-enters `connect` with the
past-the-end resolver iterator and dereferences it (undefined
behaviour), leaving the promise untouched.  With `[bad, good]` the loop
attempts `[0, 1]` and proceeds, confirming the in-order no-retry part
of the claim. -/
theorem c3_exhaustion_dereferences_end_iterator :
    connectLoop (fun _ => .other 111) ["bad1", "bad2"] 0 {} {} =
      ({}, {}, .derefEnd, [0, 1]) ∧
    (({} : Ctx).promiseWrites = []) ∧
    connectLoop (fun i => if i = 0 then .other 111 else .ok)
        ["bad", "good"] 0 {} {} =
      ({}, {}, .proceed .ok, [0, 1]) := by
  refine ⟨?_, rfl, ?_⟩
  · rw [connectLoop]; norm_num
    rw [connectLoop]; norm_num
    rw [connectLoop]; norm_num [ECode.isErr]
  · rw [connectLoop]; norm_num
    rw [connectLoop]; norm_num [ECode.isErr]

/-- C4: the `WritingBody` stage never serializes the payload (the
`TODO write payload to request_buffer_` in the source): for any state
whose request buffer was drained by the headers write, the write it
issues carries zero bytes — in particular, after `write_request` runs
for a request with body `"abc"`, `write_body` issues `.write []`, not
the body bytes. -/
theorem c4_body_payload_never_written :
    (∀ (n : Nat) (sf : Bool) (ctx : Ctx),
        (write_body .ok n sf {} { ctx with requestBuffer := [] }).2.2 =
          .write []) ∧
    ((write_request .ok false {}
        { request := { serializedHeaders := "GET /x HTTP/1.1\r\n\r\n".data,
                       body := "abc".data } }).2.1.requestBuffer = []) ∧
    ((write_body .ok 21 false
        (write_request .ok false {}
          { request := { serializedHeaders := "GET /x HTTP/1.1\r\n\r\n".data,
                         body := "abc".data } }).1
        (write_request .ok false {}
          { request := { serializedHeaders := "GET /x HTTP/1.1\r\n\r\n".data,
                         body := "abc".data } }).2.1).2.2 = .write []) ∧
    (NextOp.write [] ≠ .write "abc".data) := by
  refine ⟨?_, by decide, by decide, by decide⟩
  intro n sf ctx
  simp only [write_body, ECode.isErr]
  repeat' split
  all_goals first | rfl | simp_all

/-- C7: a local serialization failure in the body write stage fulfils
the promise with `invalid_request` WITHOUT cancelling the timer — only
the headers write stage (`write_request`) and `set_error` (used by the
resolution-failure path) cancel it.  This refutes the claim for the
`write_body` fatal path. -/
theorem c7_write_body_failure_skips_timer_cancel :
    ((write_body .ok 0 true {} {}).1.timerCancelled = false) ∧
    ((write_body .ok 0 true {} {}).2.1.promiseWrites =
      [.exn .invalidRequest]) ∧
    ((write_request .ok true {} {}).1.timerCancelled = true) ∧
    ((set_error (.other 3) {} {}).1.timerCancelled = true) := by
  decide

/-- C5: every header line containing a `':'` is split at the FIRST
`':'`; the key is everything before it and the value is everything
after it with exactly the single leading run of `' '` characters
stripped (tabs and trailing characters untouched); the line
`"Content-Type:  text/plain"` yields key `"Content-Type"` and value
exactly `"text/plain"`; and a full header block is parsed into pairs
appended in arrival order with duplicates preserved, which
`read_response_headers` appends to the response's existing header
list. -/
theorem c5_header_split_rule :
    (∀ line : List Char, ':' ∈ line →
        parseHeaderLine line =
          some (line.takeWhile (fun c => c ≠ ':'),
                ((line.dropWhile (fun c => c ≠ ':')).tail).dropWhile
                  (fun c => c = ' '))) ∧
    parseHeaderLine "Content-Type:  text/plain".data =
      some ("Content-Type".data, "text/plain".data) ∧
    (∀ lines : List (List Char),
        (∀ l ∈ lines, ':' ∈ l ∧ l ≠ ['\r'] ∧ '\n' ∉ l) →
        headersLoop (mkHeaderBlock lines) =
          some (lines.map (fun l =>
            (l.takeWhile (fun c => c ≠ ':'),
             skipLeadingSpaces ((l.dropWhile (fun c => c ≠ ':')).tail))),
            [])) ∧
    (∀ (ctx : Ctx) (res : Response) pairs rest,
        headersLoop ctx.responseBuffer = some (pairs, rest) →
        read_response_headers .ok {} ctx res =
          ({}, { ctx with responseBuffer := rest },
           .next { res with headers := res.headers ++ pairs } .read)) := by
  refine ⟨?_, by decide, headersLoop_mkHeaderBlock, ?_⟩
  · intro line hc
    simp only [parseHeaderLine, splitAtFirstColon_spec line hc,
      skipLeadingSpaces_eq_dropWhile]
  · intro ctx res pairs rest h
    simp [read_response_headers, ECode.isErr, h]

theorem c5_header_split_rule_witness :
    (':' ∈ "Content-Type:  text/plain".data ∧
     parseHeaderLine "Content-Type:  text/plain".data =
       some ("Content-Type".data, "text/plain".data)) ∧
    ((∀ l ∈ (["Via: a\r".data, "Via: a\r".data] : List (List Char)),
        ':' ∈ l ∧ l ≠ ['\r'] ∧ '\n' ∉ l) ∧
     headersLoop (mkHeaderBlock ["Via: a\r".data, "Via: a\r".data]) =
       some ([("Via".data, "a\r".data), ("Via".data, "a\r".data)], [])) := by
  refine ⟨⟨by decide, c5_header_split_rule.2.1⟩, ⟨by decide, ?_⟩⟩
  rw [c5_header_split_rule.2.2.1 _ (by decide)]
  decide

/-- C6 counterexample: reads `"ab"`, `"cd"`, `""` do NOT produce the
progress sequence `2, 4` — the handler updates the counter and invokes
the progress callback BEFORE the zero-length check, so the final
zero-length read fires the callback once more with the unchanged total,
giving the observed sequence `2, 4, 4`. -/
theorem c6_progress_fires_on_final_zero_read :
    (runReadBody [(.ok, "ab".data), (.ok, "cd".data), (.ok, [])]
        {} { hasProgress := true } {}).2.1.progressLog =
      [(.bytesRead, 2), (.bytesRead, 4), (.bytesRead, 4)] ∧
    ([(Direction.bytesRead, 2), (Direction.bytesRead, 4),
        (Direction.bytesRead, 4)] ≠
      [(Direction.bytesRead, 2), (Direction.bytesRead, 4)]) := by
  decide

/-- C6 amended: a zero-length read is the sole end-of-body signal; each
non-zero read appends exactly its bytes to the body and bumps the
received-byte counter, then another read is issued; the zero-length
read fulfils the result channel with the completed Response and cancels
the timer — but it also invokes the progress callback once more with
the unchanged total, so reads `"ab"`, `"cd"`, `""` yield body `"abcd"`
and progress sequence `2, 4, 4`; the body equals the exact
concatenation of all non-final chunks in arrival order and the progress
totals are monotonically non-decreasing. -/
theorem c6_body_accumulation :
    (runReadBody [(.ok, "ab".data), (.ok, "cd".data), (.ok, [])]
        {} { hasProgress := true } {} =
      ({ timerCancelled := true },
       { hasProgress := true
         totalBytesRead := 4
         progressLog := [(.bytesRead, 2), (.bytesRead, 4), (.bytesRead, 4)]
         promiseWrites := [.val { body := "abcd".data }] },
       { body := "abcd".data }, .delivered)) ∧
    (∀ (cs : List (List Char)) (eng : Engine) (ctx : Ctx) (res : Response),
      (∀ c ∈ cs, c ≠ []) → eng.timedout = false →
      ctx.responseBuffer = [] → ctx.hasProgress = true →
      runReadBody (cs.map (fun c => (ECode.ok, c)) ++ [(.ok, [])])
          eng ctx res =
        ({ eng with timerCancelled := true },
         { ctx with
           totalBytesRead := ctx.totalBytesRead + totalLen cs
           progressLog := ctx.progressLog ++
             ((runningTotals ctx.totalBytesRead cs ++
               [ctx.totalBytesRead + totalLen cs]).map
               (fun n => (Direction.bytesRead, n)))
           promiseWrites := ctx.promiseWrites ++
             [.val { res with body := res.body ++ concatChunks cs }] },
         { res with body := res.body ++ concatChunks cs }, .delivered)) ∧
    (∀ (t : Nat) (cs : List (List Char)),
      List.Chain' (· ≤ ·) (t :: runningTotals t cs)) := by
  exact ⟨by decide,
    fun cs eng ctx res h1 h2 h3 h4 =>
      runReadBody_ok_script cs eng ctx res h1 h2 h3 h4,
    runningTotals_chain⟩

theorem c6_body_accumulation_witness :
    ((∀ c ∈ (["ab".data, "cd".data] : List (List Char)), c ≠ []) ∧
     ({} : Engine).timedout = false ∧
     ({ hasProgress := true } : Ctx).responseBuffer = [] ∧
     ({ hasProgress := true } : Ctx).hasProgress = true) ∧
    runReadBody ((["ab".data, "cd".data] : List (List Char)).map
        (fun c => (ECode.ok, c)) ++ [(.ok, [])])
        {} { hasProgress := true } {} =
      ({ timerCancelled := true },
       { hasProgress := true
         totalBytesRead := 4
         progressLog := [(.bytesRead, 2), (.bytesRead, 4), (.bytesRead, 4)]
         promiseWrites := [.val { body := "abcd".data }] },
       { body := "abcd".data }, .delivered) := by
  refine ⟨⟨by decide, rfl, rfl, rfl⟩, ?_⟩
  rw [c6_body_accumulation.2.1 ["ab".data, "cd".data] {}
    { hasProgress := true } {} (by decide) rfl rfl rfl]
  decide

/-- C8 counterexample: a status line `"HTTP/1.1 999 Huh\r\n"` is parsed
to status 999 with no range check; the headers stage passes the
response through unchanged (blank header block), and the body stage
delivers it through the result channel as a success — yet
999 ∉ [100, 599]. -/
theorem c8_status_999_delivered :
    (read_response_status .ok {}
        { responseBuffer := "HTTP/1.1 999 Huh\r\n".data }).2.2 =
      .next { version := "HTTP/1.1".data, status := 999,
              statusMessage := "Huh".data } (.readUntil "\r\n\r\n") ∧
    read_response_headers .ok {} { responseBuffer := ['\r', '\n'] }
        { version := "HTTP/1.1".data, status := 999,
          statusMessage := "Huh".data } =
      ({}, {}, .next { version := "HTTP/1.1".data, status := 999,
                       statusMessage := "Huh".data } .read) ∧
    (runReadBody [(.ok, [])] {} {}
        { version := "HTTP/1.1".data, status := 999,
          statusMessage := "Huh".data }).2.1.promiseWrites =
      [.val { version := "HTTP/1.1".data, status := 999,
              statusMessage := "Huh".data }] ∧
    ¬(100 ≤ 999 ∧ 999 ≤ 599) := by
  refine ⟨by decide, ?_, by decide, by decide⟩
  dsimp only [read_response_headers]
  rw [headersLoop_blank]
  decide

/-- C8 amended: the status code delivered with a response is exactly
the integer value of the digit run in the status line, taken verbatim
with no range validation — the body stage fulfils the result channel
with whatever status the response object carries, so codes outside
[100, 599] are delivered as-is. -/
theorem c8_status_code_unvalidated :
    (∀ (v d m : List Char), v ≠ [] → (∀ c ∈ v, isWS c = false) →
      d ≠ [] → (∀ c ∈ d, c.isDigit = true) → '\n' ∉ m →
      parseStatusLine (v ++ ' ' :: (d ++ ' ' :: (m ++ ['\r', '\n']))) =
        ({ version := v, status := natOfDigits d,
           statusMessage := trimWS (' ' :: (m ++ ['\r'])) }, [])) ∧
    (∀ res : Response,
      (runReadBody [(.ok, [])] {} {} res).2.1.promiseWrites =
        [.val res]) := by
  constructor
  · intro v d m hv hvws hd hdd hmn
    obtain ⟨a, v', rfl⟩ : ∃ a v', v = a :: v' := by
      cases v with
      | nil => exact absurd rfl hv
      | cons a v' => exact ⟨a, v', rfl⟩
    obtain ⟨b, d', rfl⟩ : ∃ b d', d = b :: d' := by
      cases d with
      | nil => exact absurd rfl hd
      | cons b d' => exact ⟨b, d', rfl⟩
    have hWSa : isWS a = false := hvws a (by simp)
    have hWSb : isWS b = false := isDigit_not_isWS (hdd b (by simp))
    have e2 := takeWhile_append_cons (fun c => !isWS c) (a :: v') ' '
      (b :: (d' ++ ' ' :: (m ++ ['\r', '\n'])))
      (fun c hc => by simp [hvws c hc]) (by decide)
    have e4 := takeWhile_append_cons Char.isDigit (b :: d') ' '
      (m ++ ['\r', '\n']) (fun c hc => hdd c hc) (by decide)
    have e6 := takeWhile_append_cons (fun c => c ≠ '\n')
      (' ' :: (m ++ ['\r'])) '\n' []
      (fun c hc => by
        simp only [decide_eq_true_eq]
        intro hcn
        subst hcn
        rcases List.mem_cons.mp hc with h1 | h1
        · exact absurd h1.symm (by decide)
        · rcases List.mem_append.mp h1 with h2 | h2
          · exact hmn h2
          · exact absurd (List.mem_singleton.mp h2) (by decide))
      (by decide)
    simp only [List.cons_append, List.append_assoc, List.nil_append,
      List.append_nil] at e2 e4 e6 ⊢
    have e1 : List.dropWhile isWS
        (a :: (v' ++ ' ' :: b :: (d' ++ ' ' :: (m ++ ['\r', '\n'])))) =
        a :: (v' ++ ' ' :: b :: (d' ++ ' ' :: (m ++ ['\r', '\n']))) := by
      rw [List.dropWhile_cons, if_neg (by simp [hWSa])]
    have e3 : List.dropWhile isWS
        (' ' :: b :: (d' ++ ' ' :: (m ++ ['\r', '\n']))) =
        b :: (d' ++ ' ' :: (m ++ ['\r', '\n'])) := by
      rw [List.dropWhile_cons, if_pos (by decide), List.dropWhile_cons,
        if_neg (by simp [hWSb])]
    simp only [parseStatusLine, e1, e2.1, e2.2, e3, e4.1, e4.2,
      List.isEmpty_cons, Bool.false_eq_true, if_false, e6.1, e6.2]
    rfl
  · intro res
    rfl

theorem c8_status_code_unvalidated_witness :
    (("HTTP/1.1".data : List Char) ≠ [] ∧
     (∀ c ∈ ("HTTP/1.1".data : List Char), isWS c = false) ∧
     ("999".data : List Char) ≠ [] ∧
     (∀ c ∈ ("999".data : List Char), c.isDigit = true) ∧
     '\n' ∉ ("Huh".data : List Char)) ∧
    parseStatusLine ("HTTP/1.1".data ++ ' ' ::
        ("999".data ++ ' ' :: ("Huh".data ++ ['\r', '\n']))) =
      ({ version := "HTTP/1.1".data, status := natOfDigits "999".data,
         statusMessage := trimWS (' ' :: ("Huh".data ++ ['\r'])) }, []) ∧
    natOfDigits "999".data = 999 := by
  refine ⟨⟨by decide, by decide, by decide, by decide, by decide⟩, ?_, by decide⟩
  exact c8_status_code_unvalidated.1 "HTTP/1.1".data "999".data "Huh".data
    (by decide) (by decide) (by decide) (by decide) (by decide)

end CppNetlib
